import Mathlib

/-!
Formal model of the fontgrep font cache and matching engine.

The definitions below are a shallow embedding of the Rust sources:
  - `src/cache.rs`: the SQLite-backed font record store (`FontCache`),
    its staleness check, upserts, garbage collection and query builder;
  - `src/font.rs`: extraction of font attributes and the live matchers;
  - `src/matchers.rs`: the second generation of the live matchers;
  - `src/query.rs`: the scan coordinator (`FontQuery`).

The SQLite tables `fonts` and `font_properties` are modelled as Lean lists
of rows; each SQL statement of the source is translated into the
corresponding list transformation.  Machine integers (`i64`) are modelled
as `Int`; SQLite row ids are modelled as `Nat` together with a `next_id`
counter standing for the rowid allocator.
-/

namespace Fontgrep

/-- Extracted font information, mirroring `FontInfo` of `src/font.rs`
(fields `name_string`, `is_variable`, `axes`, `features`, `scripts`,
`tables`, `charset_string`). -/
structure FontInfo where
  name_string : String
  is_variable : Bool
  axes : List String
  features : List String
  scripts : List String
  tables : List String
  charset_string : String
deriving DecidableEq

/-- One row of the `fonts` table
(`id PK, path UNIQUE, name, is_variable, mtime, size, charset`). -/
structure FontRow where
  id : Nat
  path : String
  name : String
  is_variable : Bool
  mtime : Int
  size : Int
  charset : String
deriving DecidableEq

/-- One row of the `font_properties` table
(`font_id FK, type, value`).  The column named `type` in the schema is
called `kind` here because `type` is reserved in Lean. -/
structure PropRow where
  font_id : Nat
  kind : String
  value : String
deriving DecidableEq

/-- The database state: contents of both tables plus the rowid
allocator.  A freshly inserted `fonts` row receives id `next_id`. -/
structure FontDB where
  fonts : List FontRow
  props : List PropRow
  next_id : Nat
deriving DecidableEq

/-- Model of `FontCache::needs_update` (src/cache.rs 93-104):
`SELECT EXISTS(SELECT 1 FROM fonts WHERE path = ? AND mtime = ? AND size = ?)`,
negated. -/
def needs_update (db : FontDB) (path : String) (mtime size : Int) : Bool :=
  !(db.fonts.any (fun r => r.path == path && r.mtime == mtime && r.size == size))

/-- The property rows inserted for a font by `FontCache::update_font` and
`FontCache::batch_update_fonts`: `batch_insert_properties` is called for
the axis, feature, script and table tags, in that order
(src/cache.rs 163-167 and 211-215). -/
def newProps (id : Nat) (info : FontInfo) : List PropRow :=
  info.axes.map (fun t => ⟨id, "axis", t⟩)
    ++ info.features.map (fun t => ⟨id, "feature", t⟩)
    ++ info.scripts.map (fun t => ⟨id, "script", t⟩)
    ++ info.tables.map (fun t => ⟨id, "table", t⟩)

/-- Model of `FontCache::update_font` (src/cache.rs 107-172).  One transaction:
`SELECT id FROM fonts WHERE path = ?`; if a row is found, `UPDATE` its
scalar columns and `DELETE FROM font_properties WHERE font_id = ?`;
otherwise `INSERT` a fresh row (rowid `next_id`); finally insert the new
property set for the resulting id. -/
def update_font (db : FontDB) (path : String) (info : FontInfo)
    (mtime size : Int) : FontDB :=
  match db.fonts.find? (fun r => r.path == path) with
  | some r =>
    { db with
      fonts := db.fonts.map (fun x =>
        if x.id == r.id then
          { x with name := info.name_string, is_variable := info.is_variable,
                   mtime := mtime, size := size, charset := info.charset_string }
        else x),
      props := db.props.filter (fun p => p.font_id != r.id) ++ newProps r.id info }
  | none =>
    { fonts := db.fonts ++
        [⟨db.next_id, path, info.name_string, info.is_variable, mtime, size,
          info.charset_string⟩],
      props := db.props ++ newProps db.next_id info,
      next_id := db.next_id + 1 }

/-- One iteration of the loop body of `FontCache::batch_update_fonts`
(src/cache.rs 192-216).  `INSERT OR REPLACE INTO fonts` deletes any row
conflicting on the UNIQUE `path` column and inserts a fresh row, which
receives a fresh rowid; `last_insert_rowid` is that fresh id, so the
subsequent `DELETE FROM font_properties WHERE font_id = ?` targets the
fresh id, and the new property set is inserted under it.  The connection
used for the statement is opened per operation by `get_connection` and
never executes `PRAGMA foreign_keys = ON`, so deleting the conflicting
row does not cascade to `font_properties`. -/
def replace_font (db : FontDB) (path : String) (info : FontInfo)
    (mtime size : Int) : FontDB :=
  let newId := db.next_id
  { fonts := db.fonts.filter (fun r => r.path != path) ++
      [⟨newId, path, info.name_string, info.is_variable, mtime, size,
        info.charset_string⟩],
    props := db.props.filter (fun p => p.font_id != newId) ++ newProps newId info,
    next_id := newId + 1 }

/-- Model of `FontCache::batch_update_fonts` (src/cache.rs 175-223).  The source
splits the list into chunks of `DEFAULT_BATCH_SIZE` (100), one
transaction per chunk; the chunking only groups transaction boundaries,
so the net state transformation is the left fold of the per-entry body
over the whole list. -/
def batch_update_fonts (db : FontDB)
    (fonts : List (String × FontInfo × Int × Int)) : FontDB :=
  fonts.foldl (fun d e => replace_font d e.1 e.2.1 e.2.2.1 e.2.2.2) db

/-- Model of `FontCache::clean_missing_fonts` (src/cache.rs 299-339): collect the
ids of all `fonts` rows whose path is not in `existing_paths`, then in
one transaction delete the `font_properties` rows with those `font_id`s
and the `fonts` rows with those ids. -/
def clean_missing_fonts (db : FontDB) (existing_paths : List String) : FontDB :=
  let missing_ids :=
    (db.fonts.filter (fun r => !(existing_paths.contains r.path))).map (·.id)
  { db with
    fonts := db.fonts.filter (fun r => !(missing_ids.contains r.id)),
    props := db.props.filter (fun p => !(missing_ids.contains p.font_id)) }

/-! ### Live matchers over extracted info (src/font.rs 249-397) -/

/-- Model of `AxesMatcher::matches` (src/font.rs 268-272): every wanted axis tag
must be contained in `info.axes`. -/
def axesMatcher (wanted : List String) (info : FontInfo) : Bool :=
  wanted.all (fun t => info.axes.contains t)

/-- Model of `FeaturesMatcher::matches` (src/font.rs 288-294). -/
def featuresMatcher (wanted : List String) (info : FontInfo) : Bool :=
  wanted.all (fun t => info.features.contains t)

/-- Model of `ScriptsMatcher::matches` (src/font.rs 310-316). -/
def scriptsMatcher (wanted : List String) (info : FontInfo) : Bool :=
  wanted.all (fun t => info.scripts.contains t)

/-- Model of `TablesMatcher::matches` (src/font.rs 332-338); the wanted `Tag`
values are modelled by their 4-character string form, matching the
`table.to_string()` comparison of the source. -/
def tablesMatcher (wanted : List String) (info : FontInfo) : Bool :=
  wanted.all (fun t => info.tables.contains t)

/-- Model of `NameMatcher::matches` (src/font.rs 391-397): a regex is modelled by
its match predicate on strings; the matcher tests each pattern against
the single joined `name_string`. -/
def fontNameMatcher (patterns : List (String → Bool)) (info : FontInfo) : Bool :=
  patterns.any (fun p => p info.name_string)

/-! ### Raw font data

The data a parsed font exposes to the extraction code: the `skrifa`
accessors used by src/font.rs, src/matchers.rs and src/query.rs.  GSUB
and GPOS carry separate feature and script lists, which the extractors
union.  `hasMap` and `mappings` model `charmap().has_map()` and
`charmap().mappings()`; `names` models the decoded strings of the name
table records. -/
structure FontData where
  axes : List String
  gsubFeatures : List String
  gposFeatures : List String
  gsubScripts : List String
  gposScripts : List String
  tables : List String
  hasMap : Bool
  mappings : List (Nat × Nat)
  names : List String
deriving DecidableEq

/-! ### Live matchers of src/matchers.rs

These matchers extract tag collections from the font on every call and
collect them into a `HashSet`; membership in that set is membership in
the extracted list. -/

/-- Model of `AxesMatcher::matches` (src/matchers.rs 30-35). -/
def mAxesMatcher (wanted : List String) (font : FontData) : Bool :=
  wanted.all (fun t => font.axes.contains t)

/-- Model of `FeaturesMatcher::matches` (src/matchers.rs 72-79): the extraction
chains GSUB features with GPOS features. -/
def mFeaturesMatcher (wanted : List String) (font : FontData) : Bool :=
  wanted.all (fun t => (font.gsubFeatures ++ font.gposFeatures).contains t)

/-- Model of `ScriptsMatcher::matches` (src/matchers.rs 117-124). -/
def mScriptsMatcher (wanted : List String) (font : FontData) : Bool :=
  wanted.all (fun t => (font.gsubScripts ++ font.gposScripts).contains t)

/-- Model of `TablesMatcher::matches` (src/matchers.rs 149-156). -/
def mTablesMatcher (wanted : List String) (font : FontData) : Bool :=
  wanted.all (fun t => font.tables.contains t)

/-- Model of `NameMatcher::matches` (src/matchers.rs 213-221): some pattern must
match some individual extracted name string. -/
def mNameMatcher (patterns : List (String → Bool)) (names : List String) : Bool :=
  patterns.any (fun p => names.any (fun n => p n))

/-! ### Charset extraction (src/font.rs 109-158) -/

/-- Model of `is_invalid_unicode` (src/font.rs 141-158), clause for clause; `&`
on `u32` is `&&&` on the codepoint.  In the final clause `&&` binds
tighter than `||`, as in the source. -/
def is_invalid_unicode (cp : Nat) : Bool :=
  decide (cp ≤ 0x001F)
    || decide (cp = 0x007F)
    || (decide (0x0080 ≤ cp) && decide (cp ≤ 0x009F))
    || (decide (0xD800 ≤ cp) && decide (cp ≤ 0xDFFF))
    || (decide (0xFDD0 ≤ cp) && decide (cp ≤ 0xFDEF))
    || (decide (cp = 0xFFFE) || decide (cp = 0xFFFF))
    || (decide ((cp &&& 0xFFFE) = 0xFFFE) && decide (cp ≤ 0x10FFFF))

/-- Ordered duplicate-free insertion: `BTreeSet::insert` on the model of
a `BTreeSet<u32>` as its sorted element list. -/
def btreeInsert (x : Nat) : List Nat → List Nat
  | [] => [x]
  | y :: ys =>
    if x < y then x :: y :: ys
    else if x = y then y :: ys
    else y :: btreeInsert x ys

/-- Model of `create_charset` (src/font.rs 109-127): when the font has a
character map, insert every mapped codepoint that is not invalid. -/
def create_charset (hasMap : Bool) (mappings : List (Nat × Nat)) : List Nat :=
  if hasMap then
    mappings.foldl
      (fun s m => if !is_invalid_unicode m.1 then btreeInsert m.1 s else s) []
  else []

/-- Validity test of `std::char::from_u32`: every codepoint below
`0x110000` except the surrogate range is a valid `char`. -/
def u32_is_char (cp : Nat) : Bool :=
  decide (cp < 0xD800) || (decide (0xE000 ≤ cp) && decide (cp ≤ 0x10FFFF))

/-- Model of `charset_to_string` (src/font.rs 130-138): push each codepoint that
converts to a `char`; the string is modelled by its codepoint list. -/
def charset_to_string (charset : List Nat) : String :=
  String.mk ((charset.filter u32_is_char).map (fun cp => Char.ofNat cp))

/-- The exclusion set exactly as the specification words it (spec.md,
FontHandle `charset()`; claim C9): C0 controls and NULL, DEL, C1
controls, surrogates, the noncharacters FDD0-FDEF, and the plane-end
noncharacters (low 16 bits FFFE or FFFF) in any plane up to 10FFFF. -/
def specExcluded (cp : Nat) : Prop :=
  cp ≤ 0x001F ∨ cp = 0x007F ∨ (0x0080 ≤ cp ∧ cp ≤ 0x009F)
    ∨ (0xD800 ≤ cp ∧ cp ≤ 0xDFFF) ∨ (0xFDD0 ≤ cp ∧ cp ≤ 0xFDEF)
    ∨ ((cp % 0x10000 = 0xFFFE ∨ cp % 0x10000 = 0xFFFF) ∧ cp ≤ 0x10FFFF)

instance : DecidablePred specExcluded := fun cp => by
  unfold specExcluded
  exact inferInstance

/-! ### Extraction of FontInfo (src/font.rs 49-81, 161-246)

`extract_name_string`, `extract_features` and `extract_scripts` insert
into a `HashSet` and then collect it into a vector.  The iteration order
of a Rust `std` `HashSet` is unspecified (its hasher is randomly
seeded), so the collected vector is some duplicate-free ordering of the
inserted elements.  Each such collection step is modelled by an explicit
parameter `ord : List String → List String` taking the insertion list to
the collected list; a function models a real collection step iff its
result is a permutation of `l.dedup` (the set of inserted elements). -/

/-- The set-collection contract of a `HashSet<String>` round trip. -/
def IsHashOrder (ord : List String → List String) (l : List String) : Prop :=
  List.Perm (ord l) l.dedup

/-- Model of `FontInfo::from_font` (src/font.rs 49-81) assembled from
`extract_name_string` (161-174, names joined with one space),
`has_variations` (177-179), `extract_axes` (182-187), `extract_features`
(190-212, GSUB then GPOS), `extract_scripts` (215-237), `extract_tables`
(240-246), `create_charset` and `charset_to_string`. -/
def from_font (font : FontData)
    (nameOrd featOrd scriptOrd : List String → List String) : FontInfo :=
  { name_string := String.intercalate " " (nameOrd font.names),
    is_variable := !font.axes.isEmpty,
    axes := font.axes,
    features := featOrd (font.gsubFeatures ++ font.gposFeatures),
    scripts := scriptOrd (font.gsubScripts ++ font.gposScripts),
    tables := font.tables,
    charset_string := charset_to_string (create_charset font.hasMap font.mappings) }

/-! ### Query builder (src/cache.rs 498-664) -/

/-- The single-quote character, written by code point to keep quote
handling uniform. -/
def sqChar : Char := Char.ofNat 39

/-- The single-quote character as a string. -/
def sq : String := String.singleton sqChar

/-- Model of `escape_like_pattern` (src/cache.rs 654-664): prefix each of
`% _ [ ] ^` with a backslash. -/
def escape_like_pattern (s : String) : String :=
  String.mk (s.data.foldl
    (fun acc c =>
      if c = '%' ∨ c = '_' ∨ c = '[' ∨ c = ']' ∨ c = '^' then acc ++ ['\\', c]
      else acc ++ [c])
    [])

/-- Model of `.replace(single-quote, two single-quotes)` as used on name patterns
in `with_name_patterns`. -/
def replaceQuotes (s : String) : String :=
  String.mk (s.data.foldl
    (fun acc c => if c = sqChar then acc ++ [sqChar, sqChar] else acc ++ [c])
    [])

/-- Model of `QueryBuilder` (src/cache.rs 499-504).  Every bound parameter pushed
by the builder is a string, so `params` is a string list. -/
structure QueryBuilder where
  where_clauses : List String
  join_clauses : List String
  params : List String
  join_counter : Nat
deriving DecidableEq

/-- Model of `QueryBuilder::new` (src/cache.rs 508-515). -/
def QueryBuilder.new : QueryBuilder := ⟨[], [], [], 0⟩

/-- Model of `QueryBuilder::with_variable` (src/cache.rs 518-521). -/
def with_variable (b : QueryBuilder) : QueryBuilder :=
  { b with where_clauses := b.where_clauses ++ ["f.is_variable = 1"] }

/-- Model of `QueryBuilder::with_property` (src/cache.rs 524-556): one join with
a fresh alias, the property type bound as a parameter, then either a
single `= ?` predicate or an `IN` list, all tag values bound as
parameters.  In the single-tag branch the source pushes `tags[0]`, which
is `tags.headD ""` on a singleton list. -/
def with_property (b : QueryBuilder) (prop_type : String)
    (tags : List String) : QueryBuilder :=
  if tags.isEmpty then b
  else
    let counter := b.join_counter + 1
    let aliasStr := "p" ++ toString counter
    let joins := b.join_clauses ++
      ["JOIN font_properties " ++ aliasStr ++ " ON " ++ aliasStr ++
        ".font_id = f.id AND " ++ aliasStr ++ ".type = ?"]
    if tags.length = 1 then
      { where_clauses := b.where_clauses ++ [aliasStr ++ ".value = ?"],
        join_clauses := joins,
        params := (b.params ++ [prop_type]) ++ [tags.headD ""],
        join_counter := counter }
    else
      { where_clauses := b.where_clauses ++
          [aliasStr ++ ".value IN (" ++
            String.intercalate ", " (tags.map (fun _ => "?")) ++ ")"],
        join_clauses := joins,
        params := (b.params ++ [prop_type]) ++ tags,
        join_counter := counter }

/-- Model of `QueryBuilder::with_name_patterns` (src/cache.rs 559-596): each
pattern is classified by its `^`/`$` anchors (`starts_with`/`ends_with`
are first/last-character tests and the byte slices `[1..]`, `[..len-1]`
are character drops, the anchors being ASCII) and interpolated directly
into the predicate text, single quotes doubled; the predicates are OR-ed
into one clause.  No parameter is bound. -/
def with_name_patterns (b : QueryBuilder) (patterns : List String) : QueryBuilder :=
  if patterns.isEmpty then b
  else
    let conditions := patterns.map (fun pattern =>
      if pattern.data.head? == some '^' && pattern.data.getLast? == some '$' then
        "f.name = " ++ sq ++ replaceQuotes (String.mk ((pattern.data.drop 1).dropLast)) ++ sq
      else if pattern.data.head? == some '^' then
        "f.name LIKE " ++ sq ++ replaceQuotes (String.mk (pattern.data.drop 1)) ++ "%" ++ sq
      else if pattern.data.getLast? == some '$' then
        "f.name LIKE " ++ sq ++ "%" ++ replaceQuotes (String.mk pattern.data.dropLast) ++ sq
      else
        "f.name LIKE " ++ sq ++ "%" ++ replaceQuotes pattern ++ "%" ++ sq)
    { b with where_clauses := b.where_clauses ++
        ["(" ++ String.intercalate " OR " conditions ++ ")"] }

/-- Model of `QueryBuilder::with_charset` (src/cache.rs 599-632): one
`f.charset LIKE ?` predicate per character of the charset text, AND-ed
(and parenthesised when there are several), each character bound as a
`%`-wrapped, wildcard-escaped parameter. -/
def with_charset (b : QueryBuilder) (charset : String) : QueryBuilder :=
  if charset.data.isEmpty then b
  else
    let chars := charset.data
    if chars.length = 1 then
      { b with
        where_clauses := b.where_clauses ++ ["f.charset LIKE ?"],
        params := b.params ++
          ["%" ++ escape_like_pattern (String.singleton (chars.headD sqChar)) ++ "%"] }
    else
      { b with
        where_clauses := b.where_clauses ++
          ["(" ++
            String.intercalate " AND " (chars.map (fun _ => "f.charset LIKE ?")) ++
            ")"],
        params := b.params ++
          chars.map (fun c => "%" ++ escape_like_pattern (String.singleton c) ++ "%") }

/-- Model of `QueryBuilder::build` (src/cache.rs 635-650): base SELECT, the join
clauses appended one by one, then the WHERE clauses AND-ed. -/
def build (b : QueryBuilder) : String × List String :=
  let q1 := b.join_clauses.foldl (fun q j => q ++ " " ++ j)
    "SELECT DISTINCT f.path FROM fonts f"
  (if b.where_clauses.isEmpty then q1
   else q1 ++ " WHERE " ++ String.intercalate " AND " b.where_clauses,
   b.params)

/-! ### Scan coordinator (src/query.rs) -/

/-- The text-query test used both by `FontQuery::font_matches`
(src/query.rs 331-332) and `FontQuery::get_charset_query` (367): a range
of more than one codepoint, all below `0x10000` and all valid chars. -/
def is_text_range (range : List Nat) : Bool :=
  decide (range.length > 1)
    && range.all (fun cp => decide (cp < 0x10000) && u32_is_char cp)

/-- Model of `FontQuery::get_charset_query` (src/query.rs 359-401): if some
codepoint range is a text query, return all its characters; otherwise
sample the first 5 valid codepoints across all ranges. -/
def get_charset_query (codepoints : List (List Nat)) : Option (List Nat) :=
  if codepoints.isEmpty then none
  else
    match codepoints.find? is_text_range with
    | some range => some (range.filter u32_is_char)
    | none =>
      let chars := (codepoints.flatten.filter u32_is_char).take 5
      if chars.isEmpty then none else some chars

/-- The character list the generated cache query conjoins over: the
characters of `get_charset_query`, each of which `with_charset` turns
into one AND-ed `LIKE` predicate. -/
def charsetQueryChars (codepoints : List (List Nat)) : List Nat :=
  (get_charset_query codepoints).getD []

/-- The characters of the query text: every codepoint of the criteria
that converts to a `char`, in order. -/
def queryTextChars (codepoints : List (List Nat)) : List Nat :=
  codepoints.flatten.filter u32_is_char

/-- Model of `FontQuery` (src/query.rs 21-45); the `variable` field is renamed
`variable_only` (`variable` is reserved in Lean), and each compiled
`Regex` is modelled by its match predicate. -/
structure FontQuery where
  axes : List String
  codepoints : List (List Nat)
  features : List String
  variable_only : Bool
  tables : List String
  scripts : List String
  name_regexes : List (String → Bool)

/-- Model of `axis_filter` (src/query.rs 613-615). -/
def axis_filter (font : FontData) (axis : String) : Bool :=
  font.axes.any (fun a => a == axis)

/-- Model of `feature_filter` (src/query.rs 618-642): GSUB then GPOS. -/
def feature_filter (font : FontData) (feature : String) : Bool :=
  font.gsubFeatures.any (fun f => f == feature)
    || font.gposFeatures.any (fun f => f == feature)

/-- Model of `table_filter` (src/query.rs 645-647). -/
def table_filter (font : FontData) (t : String) : Bool :=
  font.tables.any (fun x => x == t)

/-- Model of `script_filter` (src/query.rs 650-674). -/
def script_filter (font : FontData) (s : String) : Bool :=
  font.gsubScripts.any (fun x => x == s)
    || font.gposScripts.any (fun x => x == s)

/-- Model of `codepoint_filter` (src/query.rs 677-679):
`font.charmap().map(codepoint).is_some()`. -/
def codepoint_filter (font : FontData) (cp : Nat) : Bool :=
  font.mappings.any (fun m => m.1 == cp)

/-- Model of `name_filter` (src/query.rs 682-694): the regex against each name
record string. -/
def name_filter (font : FontData) (rgx : String → Bool) : Bool :=
  font.names.any (fun n => rgx n)

/-- Model of `FontQuery::font_matches` (src/query.rs 290-356): the early-return
filter cascade; for codepoints, a text-query range requires all its
codepoints, any other non-empty range requires at least one. -/
def font_matches (q : FontQuery) (font : FontData) : Bool :=
  (!(q.variable_only && font.axes.isEmpty))
    && q.axes.all (fun a => axis_filter font a)
    && q.features.all (fun f => feature_filter font f)
    && q.scripts.all (fun s => script_filter font s)
    && q.tables.all (fun t => table_filter font t)
    && q.codepoints.all (fun range =>
        if range.isEmpty then true
        else if is_text_range range then
          range.all (fun cp => codepoint_filter font cp)
        else range.any (fun cp => codepoint_filter font cp))
    && q.name_regexes.all (fun rgx => name_filter font rgx)

/-- Model of `FontQuery::process_font_file` (src/query.rs 257-287).  `parsed`
is the result of `FontRef::new` on the file bytes (`none` = parse
failure, skipped); `extract` stands for `FontInfo::from_font`; `cache`
is the optional store.  The store is written only inside the
`font_matches` branch. -/
def process_font_file (q : FontQuery) (extract : FontData → FontInfo)
    (parsed : Option FontData) (path : String) (mtime size : Int)
    (cache : Option FontDB) (matching_fonts : List String) :
    Option FontDB × List String :=
  match parsed with
  | none => (cache, matching_fonts)
  | some font =>
    if font_matches q font then
      (match cache with
        | some db => some (update_font db path (extract font) mtime size)
        | none => none,
        matching_fonts ++ [path])
    else (cache, matching_fonts)

/-- Model of `FontQuery::update_cache_for_file` (src/query.rs 561-596): on a
successful parse, extract and upsert unconditionally. -/
def update_cache_for_file (extract : FontData → FontInfo)
    (parsed : Option FontData) (path : String) (mtime size : Int)
    (db : FontDB) : FontDB :=
  match parsed with
  | none => db
  | some font => update_font db path (extract font) mtime size

/-! ### Theorems -/

/-- Characterization of a positive staleness answer. -/
theorem needs_update_eq_true_iff (db : FontDB) (p : String) (m s : Int) :
    needs_update db p m s = true ↔
      ∀ r ∈ db.fonts, ¬(r.path = p ∧ r.mtime = m ∧ r.size = s) := by
  simp only [needs_update, Bool.not_eq_true', List.any_eq_false,
    Bool.and_eq_true, beq_iff_eq]
  constructor
  · intro h r hr hand
    exact (h r hr) ⟨⟨hand.1, hand.2.1⟩, hand.2.2⟩
  · intro h r hr hand
    exact h r hr ⟨hand.1.1, hand.1.2, hand.2⟩

/-- Characterization of a negative staleness answer. -/
theorem needs_update_eq_false_iff (db : FontDB) (p : String) (m s : Int) :
    needs_update db p m s = false ↔
      ∃ r ∈ db.fonts, r.path = p ∧ r.mtime = m ∧ r.size = s := by
  simp only [needs_update, Bool.not_eq_false', List.any_eq_true,
    Bool.and_eq_true, beq_iff_eq]
  constructor
  · rintro ⟨r, hr, ⟨h1, h2⟩, h3⟩
    exact ⟨r, hr, h1, h2, h3⟩
  · rintro ⟨r, hr, h1, h2, h3⟩
    exact ⟨r, hr, ⟨h1, h2⟩, h3⟩

/-- Shape of the clause and parameters `with_charset` appends for a
non-empty charset text: one `LIKE` predicate and one escaped,
`%`-wrapped parameter per character, the predicates AND-ed. -/
theorem with_charset_shape (b : QueryBuilder) (cs : String)
    (h : cs.data ≠ []) :
    (with_charset b cs).where_clauses = b.where_clauses ++
      [if cs.data.length = 1 then "f.charset LIKE ?"
       else "(" ++ String.intercalate " AND "
         (List.replicate cs.data.length "f.charset LIKE ?") ++ ")"]
    ∧ (with_charset b cs).params = b.params ++
        cs.data.map (fun c => "%" ++ escape_like_pattern (String.singleton c) ++ "%")
    ∧ (with_charset b cs).join_clauses = b.join_clauses := by
  cases hd : cs.data with
  | nil => exact absurd hd h
  | cons c tl =>
    cases tl with
    | nil =>
      refine ⟨?_, ?_, ?_⟩ <;> simp [with_charset, hd]
    | cons c2 tl2 =>
      refine ⟨?_, ?_, ?_⟩ <;> simp [with_charset, hd, List.map_const', List.replicate_succ]

/-- C7 (amended): if some codepoint range of the criteria is a text
query (more than one codepoint, all BMP scalar values), the generated
cache query uses every character of the first such range, however many
there are; otherwise it samples the first 5 valid codepoints across all
ranges.  In either case `with_charset` conjoins one `LIKE` predicate and
binds one parameter per used character.  There is no 10-character
threshold. -/
theorem charset_query_semantics (cps : List (List Nat)) (b : QueryBuilder)
    (cs : String) :
    (∀ range, cps.find? is_text_range = some range →
        charsetQueryChars cps = range.filter u32_is_char ∧ 1 < range.length)
    ∧ (cps.find? is_text_range = none →
        charsetQueryChars cps = (cps.flatten.filter u32_is_char).take 5)
    ∧ (cs.data ≠ [] →
        (with_charset b cs).where_clauses = b.where_clauses ++
          [if cs.data.length = 1 then "f.charset LIKE ?"
           else "(" ++ String.intercalate " AND "
             (List.replicate cs.data.length "f.charset LIKE ?") ++ ")"]
        ∧ (with_charset b cs).params = b.params ++
            cs.data.map (fun c =>
              "%" ++ escape_like_pattern (String.singleton c) ++ "%")) := by
  refine ⟨?_, ?_, fun h => ⟨(with_charset_shape b cs h).1, (with_charset_shape b cs h).2.1⟩⟩
  · intro range hfind
    constructor
    · have hne : cps.isEmpty = false := by
        cases cps with
        | nil => simp at hfind
        | cons _ _ => rfl
      simp [charsetQueryChars, get_charset_query, hne, hfind]
    · have hp := List.find?_some hfind
      simp only [is_text_range, Bool.and_eq_true, decide_eq_true_eq] at hp
      exact hp.1
  · intro hfind
    cases hcps : cps with
    | nil => simp [charsetQueryChars, get_charset_query]
    | cons r rs =>
      rw [← hcps]
      have hne : cps.isEmpty = false := by rw [hcps]; rfl
      cases hch : (cps.flatten.filter u32_is_char).take 5 with
      | nil =>
        simp only [charsetQueryChars, get_charset_query, hne, Bool.false_eq_true,
          if_false, hfind, hch]
        rfl
      | cons a l =>
        simp only [charsetQueryChars, get_charset_query, hne, Bool.false_eq_true,
          if_false, hfind, hch]
        rfl

/-- Witness for `charset_query_semantics`: the two-character text query
AB is used whole, and builds two AND-ed `LIKE` predicates with two bound
parameters. -/
theorem charset_query_semantics_witness :
    (charsetQueryChars [[65, 66]] = List.filter u32_is_char [65, 66]
      ∧ 1 < ([65, 66] : List Nat).length)
    ∧ ((with_charset QueryBuilder.new "AB").where_clauses =
        QueryBuilder.new.where_clauses ++
          [if ("AB".data.length = 1) then "f.charset LIKE ?"
           else "(" ++ String.intercalate " AND "
             (List.replicate "AB".data.length "f.charset LIKE ?") ++ ")"]
      ∧ (with_charset QueryBuilder.new "AB").params =
          QueryBuilder.new.params ++
            "AB".data.map (fun c =>
              "%" ++ escape_like_pattern (String.singleton c) ++ "%")) :=
  ⟨(charset_query_semantics [[65, 66]] QueryBuilder.new "AB").1 [65, 66] (by decide),
   (charset_query_semantics [[65, 66]] QueryBuilder.new "AB").2.2 (by decide)⟩

/-- C7 counterexample: a single text range of 11 BMP characters.  The
claim predicts that a text longer than 10 characters contributes only
its first 5 characters to the generated query; the code uses all 11. -/
theorem charset_heuristic_counterexample :
    charsetQueryChars [[65, 66, 67, 68, 69, 70, 71, 72, 73, 74, 75]] ≠
      (if (queryTextChars [[65, 66, 67, 68, 69, 70, 71, 72, 73, 74, 75]]).length ≤ 10
       then queryTextChars [[65, 66, 67, 68, 69, 70, 71, 72, 73, 74, 75]]
       else (queryTextChars [[65, 66, 67, 68, 69, 70, 71, 72, 73, 74, 75]]).take 5) := by
  decide

/-- C8 (amended): property criteria and charset criteria are fully
parameterized: the SQL text they generate depends only on the shape
(number of tags, number of characters) and the property tags and
escaped charset characters travel in the bound-parameter list.  Name
patterns are not: each pattern is interpolated directly into the SQL
predicate text with only single quotes doubled and no wildcard
escaping, and binds no parameter. -/
theorem sql_parameterization (b : QueryBuilder) (ptype : String)
    (tags1 tags2 : List String) (pat : String) :
    (tags1.length = tags2.length →
      (build (with_property b ptype tags1)).1 =
        (build (with_property b ptype tags2)).1)
    ∧ (tags1 ≠ [] →
      (with_property b ptype tags1).params = b.params ++ ptype :: tags1)
    ∧ (∀ cs1 cs2 : String, cs1.data.length = cs2.data.length →
        (build (with_charset b cs1)).1 = (build (with_charset b cs2)).1)
    ∧ (∀ cs : String, (with_charset b cs).params = b.params ++
        cs.data.map (fun c => "%" ++ escape_like_pattern (String.singleton c) ++ "%"))
    ∧ (pat.data.head? ≠ some '^' → pat.data.getLast? ≠ some '$' →
        (with_name_patterns b [pat]).where_clauses = b.where_clauses ++
          ["(" ++ ("f.name LIKE " ++ sq ++ "%" ++ replaceQuotes pat ++ "%" ++ sq) ++ ")"]
        ∧ (with_name_patterns b [pat]).params = b.params) := by
  have hbuild : ∀ b1 b2 : QueryBuilder, b1.join_clauses = b2.join_clauses →
      b1.where_clauses = b2.where_clauses → (build b1).1 = (build b2).1 := by
    intro b1 b2 hj hw
    simp [build, hj, hw]
  refine ⟨?_, ?_, ?_, ?_, ?_⟩
  · intro hlen
    cases tags1 with
    | nil =>
      cases tags2 with
      | nil => rfl
      | cons t2 tl2 => simp at hlen
    | cons t1 tl1 =>
      cases tags2 with
      | nil => simp at hlen
      | cons t2 tl2 =>
        apply hbuild
        · have hj : ∀ (t u : String) (tl ul : List String),
              (with_property b ptype (t :: tl)).join_clauses =
                (with_property b ptype (u :: ul)).join_clauses := by
            intro t u tl ul
            simp only [with_property, List.isEmpty_cons, Bool.false_eq_true,
              if_false]
            split <;> split <;> rfl
          exact hj t1 t2 tl1 tl2
        · cases tl1 with
          | nil =>
            cases tl2 with
            | nil => rfl
            | cons u2 ul2 => simp at hlen
          | cons u1 ul1 =>
            cases tl2 with
            | nil => simp at hlen
            | cons u2 ul2 =>
              simp only [with_property, List.isEmpty_cons, Bool.false_eq_true,
                if_false]
              have hc1 : ¬((t1 :: u1 :: ul1 : List String).length = 1) := by simp
              have hc2 : ¬((t2 :: u2 :: ul2 : List String).length = 1) := by simp
              rw [if_neg hc1, if_neg hc2, List.map_const', List.map_const', hlen]
  · intro hne
    cases tags1 with
    | nil => exact absurd rfl hne
    | cons t1 tl1 =>
      cases tl1 with
      | nil => simp [with_property]
      | cons u1 ul1 =>
        have hc1 : ¬((t1 :: u1 :: ul1 : List String).length = 1) := by simp
        simp [with_property, hc1]
  · intro cs1 cs2 hlen
    by_cases hd1 : cs1.data = []
    · have hd2 : cs2.data = [] := by
        rw [hd1] at hlen
        exact List.length_eq_zero.mp hlen.symm
      simp [with_charset, hd1, hd2]
    · have hd2 : cs2.data ≠ [] := by
        intro h
        rw [h] at hlen
        exact hd1 (List.length_eq_zero.mp hlen)
      apply hbuild
      · exact (with_charset_shape b cs1 hd1).2.2.trans
          (with_charset_shape b cs2 hd2).2.2.symm
      · rw [(with_charset_shape b cs1 hd1).1,
          (with_charset_shape b cs2 hd2).1, hlen]
  · intro cs
    by_cases hd : cs.data = []
    · simp [with_charset, hd]
    · exact (with_charset_shape b cs hd).2.1
  · intro h1 h2
    have hint : ∀ x : String, String.intercalate " OR " [x] = x := fun x => rfl
    constructor
    · simp [with_name_patterns, h1, h2, hint]
    · simp [with_name_patterns, h1, h2]

/-- Witness for `sql_parameterization` at concrete criteria. -/
theorem sql_parameterization_witness :
    ((build (with_property QueryBuilder.new "axis" ["wght"])).1 =
        (build (with_property QueryBuilder.new "axis" ["wdth"])).1)
    ∧ ((with_property QueryBuilder.new "axis" ["wght"]).params =
        QueryBuilder.new.params ++ "axis" :: ["wght"])
    ∧ ((build (with_charset QueryBuilder.new "A")).1 =
        (build (with_charset QueryBuilder.new "B")).1)
    ∧ ((with_charset QueryBuilder.new "A").params =
        QueryBuilder.new.params ++
          "A".data.map (fun c =>
            "%" ++ escape_like_pattern (String.singleton c) ++ "%"))
    ∧ ((with_name_patterns QueryBuilder.new ["Bold"]).where_clauses =
        QueryBuilder.new.where_clauses ++
          ["(" ++ ("f.name LIKE " ++ sq ++ "%" ++ replaceQuotes "Bold" ++ "%" ++ sq) ++ ")"]
      ∧ (with_name_patterns QueryBuilder.new ["Bold"]).params =
          QueryBuilder.new.params) :=
  ⟨(sql_parameterization QueryBuilder.new "axis" ["wght"] ["wdth"] "Bold").1 rfl,
   (sql_parameterization QueryBuilder.new "axis" ["wght"] ["wdth"] "Bold").2.1
     (by decide),
   (sql_parameterization QueryBuilder.new "axis" ["wght"] ["wdth"] "Bold").2.2.1
     "A" "B" rfl,
   (sql_parameterization QueryBuilder.new "axis" ["wght"] ["wdth"] "Bold").2.2.2.1
     "A",
   (sql_parameterization QueryBuilder.new "axis" ["wght"] ["wdth"] "Bold").2.2.2.2
     (by decide) (by decide)⟩

/-- C8 counterexample: two criteria sets of identical shape (one name
pattern of one character each) produce different SQL strings, because
the pattern value is interpolated into the SQL text rather than bound
as a parameter. -/
theorem sql_value_independence_counterexample :
    (build (with_name_patterns QueryBuilder.new ["a"])).1 ≠
      (build (with_name_patterns QueryBuilder.new ["b"])).1 := by
  decide

/-- C10 (amended): two extractions of the same font data agree on
`is_variable`, `axes`, `tables` and `charset_string`, and agree on
`features`, `scripts` and the joined name set up to the iteration order
of the hash sets; they need not be equal as `FontInfo` values. -/
theorem extraction_agreement (font : FontData)
    (o1 o2 o3 o4 o5 o6 : List String → List String)
    (h1 : IsHashOrder o1 font.names)
    (h2 : IsHashOrder o2 (font.gsubFeatures ++ font.gposFeatures))
    (h3 : IsHashOrder o3 (font.gsubScripts ++ font.gposScripts))
    (h4 : IsHashOrder o4 font.names)
    (h5 : IsHashOrder o5 (font.gsubFeatures ++ font.gposFeatures))
    (h6 : IsHashOrder o6 (font.gsubScripts ++ font.gposScripts)) :
    (from_font font o1 o2 o3).is_variable = (from_font font o4 o5 o6).is_variable
    ∧ (from_font font o1 o2 o3).axes = (from_font font o4 o5 o6).axes
    ∧ (from_font font o1 o2 o3).tables = (from_font font o4 o5 o6).tables
    ∧ (from_font font o1 o2 o3).charset_string =
        (from_font font o4 o5 o6).charset_string
    ∧ List.Perm (from_font font o1 o2 o3).features
        (from_font font o4 o5 o6).features
    ∧ List.Perm (from_font font o1 o2 o3).scripts
        (from_font font o4 o5 o6).scripts
    ∧ ∃ l1 l2 : List String, List.Perm l1 l2
        ∧ (from_font font o1 o2 o3).name_string = String.intercalate " " l1
        ∧ (from_font font o4 o5 o6).name_string = String.intercalate " " l2 := by
  unfold IsHashOrder at h1 h2 h3 h4 h5 h6
  exact ⟨rfl, rfl, rfl, rfl, h2.trans h5.symm, h3.trans h6.symm,
    o1 font.names, o4 font.names, h1.trans h4.symm, rfl, rfl⟩

/-- Witness for `extraction_agreement` with a concrete font and concrete
set-collection orders. -/
theorem extraction_agreement_witness :
    (from_font ⟨[], ["liga"], ["kern"], [], [], [], false, [], ["A", "B"]⟩
        (fun l => l.dedup) (fun l => l.dedup) (fun l => l.dedup)).is_variable =
      (from_font ⟨[], ["liga"], ["kern"], [], [], [], false, [], ["A", "B"]⟩
        (fun l => l.dedup) (fun l => l.dedup) (fun l => l.dedup)).is_variable
    ∧ (from_font ⟨[], ["liga"], ["kern"], [], [], [], false, [], ["A", "B"]⟩
        (fun l => l.dedup) (fun l => l.dedup) (fun l => l.dedup)).axes =
      (from_font ⟨[], ["liga"], ["kern"], [], [], [], false, [], ["A", "B"]⟩
        (fun l => l.dedup) (fun l => l.dedup) (fun l => l.dedup)).axes
    ∧ (from_font ⟨[], ["liga"], ["kern"], [], [], [], false, [], ["A", "B"]⟩
        (fun l => l.dedup) (fun l => l.dedup) (fun l => l.dedup)).tables =
      (from_font ⟨[], ["liga"], ["kern"], [], [], [], false, [], ["A", "B"]⟩
        (fun l => l.dedup) (fun l => l.dedup) (fun l => l.dedup)).tables
    ∧ (from_font ⟨[], ["liga"], ["kern"], [], [], [], false, [], ["A", "B"]⟩
        (fun l => l.dedup) (fun l => l.dedup) (fun l => l.dedup)).charset_string =
      (from_font ⟨[], ["liga"], ["kern"], [], [], [], false, [], ["A", "B"]⟩
        (fun l => l.dedup) (fun l => l.dedup) (fun l => l.dedup)).charset_string
    ∧ List.Perm
        (from_font ⟨[], ["liga"], ["kern"], [], [], [], false, [], ["A", "B"]⟩
          (fun l => l.dedup) (fun l => l.dedup) (fun l => l.dedup)).features
        (from_font ⟨[], ["liga"], ["kern"], [], [], [], false, [], ["A", "B"]⟩
          (fun l => l.dedup) (fun l => l.dedup) (fun l => l.dedup)).features
    ∧ List.Perm
        (from_font ⟨[], ["liga"], ["kern"], [], [], [], false, [], ["A", "B"]⟩
          (fun l => l.dedup) (fun l => l.dedup) (fun l => l.dedup)).scripts
        (from_font ⟨[], ["liga"], ["kern"], [], [], [], false, [], ["A", "B"]⟩
          (fun l => l.dedup) (fun l => l.dedup) (fun l => l.dedup)).scripts
    ∧ ∃ l1 l2 : List String, List.Perm l1 l2
        ∧ (from_font ⟨[], ["liga"], ["kern"], [], [], [], false, [], ["A", "B"]⟩
            (fun l => l.dedup) (fun l => l.dedup) (fun l => l.dedup)).name_string =
          String.intercalate " " l1
        ∧ (from_font ⟨[], ["liga"], ["kern"], [], [], [], false, [], ["A", "B"]⟩
            (fun l => l.dedup) (fun l => l.dedup) (fun l => l.dedup)).name_string =
          String.intercalate " " l2 :=
  extraction_agreement ⟨[], ["liga"], ["kern"], [], [], [], false, [], ["A", "B"]⟩
    (fun l => l.dedup) (fun l => l.dedup) (fun l => l.dedup)
    (fun l => l.dedup) (fun l => l.dedup) (fun l => l.dedup)
    (List.Perm.refl _) (List.Perm.refl _) (List.Perm.refl _)
    (List.Perm.refl _) (List.Perm.refl _) (List.Perm.refl _)

/-- C10 counterexample: two set-collection orders that are both valid
hash-set iteration orders for the same font data give unequal `FontInfo`
values, differing in `name_string`; extraction is not a function of the
font bytes alone. -/
theorem extraction_determinism_counterexample :
    IsHashOrder (fun l => l.dedup) ["A", "B"]
    ∧ IsHashOrder (fun l => l.dedup.reverse) ["A", "B"]
    ∧ from_font ⟨[], [], [], [], [], [], false, [], ["A", "B"]⟩
        (fun l => l.dedup) (fun l => l.dedup) (fun l => l.dedup) ≠
      from_font ⟨[], [], [], [], [], [], false, [], ["A", "B"]⟩
        (fun l => l.dedup.reverse) (fun l => l.dedup) (fun l => l.dedup) := by
  refine ⟨?_, ?_, by decide⟩
  · exact List.Perm.refl _
  · exact List.reverse_perm _

/-- The id of a row of the store is collected into `missing_ids` iff the
row path is absent from the existing-path set (uses uniqueness of the
`id` primary key). -/
theorem missing_ids_contains_iff (db : FontDB) (existing : List String)
    (hids : (db.fonts.map (·.id)).Nodup) (f : FontRow) (hf : f ∈ db.fonts) :
    ((db.fonts.filter (fun r => !(existing.contains r.path))).map (·.id)).contains f.id
      = !(existing.contains f.path) := by
  by_cases hc : existing.contains f.path = true
  · rw [hc, Bool.not_true, Bool.eq_false_iff]
    intro hx
    rcases List.contains_iff_exists_mem_beq.mp hx with ⟨i, hi, hbeq⟩
    have hieq : f.id = i := by simpa using hbeq
    rcases List.mem_map.mp hi with ⟨g, hg, hgid⟩
    rcases List.mem_filter.mp hg with ⟨hgmem, hgp⟩
    have hgf : g = f :=
      List.inj_on_of_nodup_map hids hgmem hf (by rw [hgid, ← hieq])
    subst hgf
    rw [hc] at hgp
    simp at hgp
  · have hc' : existing.contains f.path = false := by
      revert hc
      cases existing.contains f.path <;> simp
    rw [hc', Bool.not_false]
    exact List.contains_iff_exists_mem_beq.mpr
      ⟨f.id, List.mem_map_of_mem _ (List.mem_filter.mpr ⟨hf, by rw [hc']; rfl⟩),
        by simp⟩

/-- C4: Garbage-collection exactness.  `FontCache::clean_missing_fonts`
keeps exactly the font records whose path is in the existing-path set,
keeps every property row belonging to a kept record, and deletes every
property row belonging to a deleted record.  The `id` primary key is
modelled by the `Nodup` hypothesis. -/
theorem gc_exactness (db : FontDB) (existing : List String)
    (hids : (db.fonts.map (·.id)).Nodup) :
    (clean_missing_fonts db existing).fonts =
      db.fonts.filter (fun r => existing.contains r.path)
    ∧ ∀ q ∈ db.props, ∀ f ∈ db.fonts, q.font_id = f.id →
        ((existing.contains f.path = true →
            q ∈ (clean_missing_fonts db existing).props)
         ∧ (existing.contains f.path = false →
            q ∉ (clean_missing_fonts db existing).props)) := by
  constructor
  · simp only [clean_missing_fonts]
    apply List.filter_congr
    intro r hr
    rw [missing_ids_contains_iff db existing hids r hr]
    cases existing.contains r.path <;> rfl
  · intro q hq f hf hqf
    constructor
    · intro hc
      simp only [clean_missing_fonts]
      refine List.mem_filter.mpr ⟨hq, ?_⟩
      rw [hqf, missing_ids_contains_iff db existing hids f hf, hc]
      rfl
    · intro hc hmem
      simp only [clean_missing_fonts] at hmem
      rcases List.mem_filter.mp hmem with ⟨_, hkeep⟩
      rw [hqf, missing_ids_contains_iff db existing hids f hf, hc] at hkeep
      simp at hkeep

/-- Witness for `gc_exactness` at a concrete two-record store. -/
theorem gc_exactness_witness :
    (clean_missing_fonts
        ⟨[⟨1, "a", "", false, 0, 0, ""⟩, ⟨2, "b", "", false, 0, 0, ""⟩],
          [⟨1, "axis", "wght"⟩, ⟨2, "axis", "wdth"⟩], 3⟩ ["a"]).fonts =
      [⟨1, "a", "", false, 0, 0, ""⟩, ⟨2, "b", "", false, 0, 0, ""⟩].filter
        (fun r => (["a"] : List String).contains r.path)
    ∧ (⟨1, "axis", "wght"⟩ : PropRow) ∈ (clean_missing_fonts
        ⟨[⟨1, "a", "", false, 0, 0, ""⟩, ⟨2, "b", "", false, 0, 0, ""⟩],
          [⟨1, "axis", "wght"⟩, ⟨2, "axis", "wdth"⟩], 3⟩ ["a"]).props
    ∧ (⟨2, "axis", "wdth"⟩ : PropRow) ∉ (clean_missing_fonts
        ⟨[⟨1, "a", "", false, 0, 0, ""⟩, ⟨2, "b", "", false, 0, 0, ""⟩],
          [⟨1, "axis", "wght"⟩, ⟨2, "axis", "wdth"⟩], 3⟩ ["a"]).props := by
  have h := gc_exactness
    ⟨[⟨1, "a", "", false, 0, 0, ""⟩, ⟨2, "b", "", false, 0, 0, ""⟩],
      [⟨1, "axis", "wght"⟩, ⟨2, "axis", "wdth"⟩], 3⟩ ["a"] (by decide)
  exact ⟨h.1,
    (h.2 ⟨1, "axis", "wght"⟩ (by decide) ⟨1, "a", "", false, 0, 0, ""⟩
      (by decide) rfl).1 (by decide),
    (h.2 ⟨2, "axis", "wdth"⟩ (by decide) ⟨2, "b", "", false, 0, 0, ""⟩
      (by decide) rfl).2 (by decide)⟩

/-- The masked final clause of `is_invalid_unicode`: bits 1 to 15 all set
means the low 16 bits are FFFE or FFFF. -/
theorem and_FFFE_iff (cp : Nat) :
    cp &&& 0xFFFE = 0xFFFE ↔
      cp % 0x10000 = 0xFFFE ∨ cp % 0x10000 = 0xFFFF := by
  have hmod : cp &&& 0xFFFF = cp % 0x10000 := by
    have h := Nat.and_pow_two_sub_one_eq_mod cp 16
    norm_num at h
    exact h
  have hff : (0xFFFF : Nat) &&& 0xFFFE = 0xFFFE := by
    rw [Nat.and_comm]
    have h := Nat.and_pow_two_sub_one_eq_mod 0xFFFE 16
    norm_num at h ⊢
    exact h
  have h1 : cp &&& 0xFFFE = (cp % 0x10000) &&& 0xFFFE := by
    conv_lhs => rw [← hff, ← Nat.and_assoc, hmod]
  rw [h1]
  constructor
  · intro h
    have hlt : cp % 0x10000 < 0x10000 := Nat.mod_lt _ (by norm_num)
    have hge : (0xFFFE : Nat) ≤ cp % 0x10000 := by
      calc (0xFFFE : Nat) = cp % 0x10000 &&& 0xFFFE := h.symm
        _ ≤ cp % 0x10000 := Nat.and_le_left
    omega
  · rintro (h | h) <;> rw [h]
    · exact Nat.and_self _
    · exact hff

/-- Model of `is_invalid_unicode` agrees clause for clause with the exclusion set
as the specification words it. -/
theorem is_invalid_unicode_iff (cp : Nat) :
    is_invalid_unicode cp = true ↔ specExcluded cp := by
  simp only [is_invalid_unicode, specExcluded, Bool.or_eq_true,
    Bool.and_eq_true, decide_eq_true_eq, and_FFFE_iff]
  omega

/-- Membership in the ordered set insertion. -/
theorem mem_btreeInsert (a x : Nat) (l : List Nat) :
    a ∈ btreeInsert x l ↔ a = x ∨ a ∈ l := by
  induction l with
  | nil => simp [btreeInsert]
  | cons y ys ih =>
    by_cases h1 : x < y
    · simp [btreeInsert, h1, List.mem_cons]
    · by_cases h2 : x = y
      · subst h2
        simp [btreeInsert, h1, List.mem_cons]
      · simp [btreeInsert, h1, h2, List.mem_cons, ih]
        tauto

/-- Membership in the charset fold of `create_charset`. -/
theorem mem_charset_foldl (cp : Nat) (mappings : List (Nat × Nat)) :
    ∀ acc : List Nat,
      cp ∈ mappings.foldl
          (fun s m => if !is_invalid_unicode m.1 then btreeInsert m.1 s else s)
          acc
        ↔ cp ∈ acc
          ∨ ∃ m ∈ mappings, m.1 = cp ∧ is_invalid_unicode cp = false := by
  induction mappings with
  | nil => intro acc; simp
  | cons m ms ih =>
    intro acc
    rw [List.foldl_cons, ih]
    by_cases hv : is_invalid_unicode m.1 = true
    · simp only [hv, Bool.not_true, Bool.false_eq_true, if_false]
      constructor
      · rintro (h | ⟨m2, hm2, h1, h2⟩)
        · exact Or.inl h
        · exact Or.inr ⟨m2, List.mem_cons_of_mem _ hm2, h1, h2⟩
      · rintro (h | ⟨m2, hm2, h1, h2⟩)
        · exact Or.inl h
        · rcases List.mem_cons.mp hm2 with rfl | hmem
          · rw [← h1, hv] at h2
            cases h2
          · exact Or.inr ⟨m2, hmem, h1, h2⟩
    · have hv' : is_invalid_unicode m.1 = false := by
        revert hv
        cases is_invalid_unicode m.1 <;> simp
      simp only [hv', Bool.not_false, if_true]
      rw [mem_btreeInsert]
      constructor
      · rintro ((rfl | h) | ⟨m2, hm2, h1, h2⟩)
        · exact Or.inr ⟨m, List.mem_cons_self _ _, rfl, hv'⟩
        · exact Or.inl h
        · exact Or.inr ⟨m2, List.mem_cons_of_mem _ hm2, h1, h2⟩
      · rintro (h | ⟨m2, hm2, h1, h2⟩)
        · exact Or.inl (Or.inr h)
        · rcases List.mem_cons.mp hm2 with rfl | hmem
          · exact Or.inl (Or.inl h1.symm)
          · exact Or.inr ⟨m2, hmem, h1, h2⟩

/-- C9: Charset exclusion set.  A codepoint mapped by the character map
is excluded from the extracted charset iff it is a C0 control or NULL,
DEL, a C1 control, a surrogate, a noncharacter in FDD0-FDEF, or a
plane-end noncharacter up to 10FFFF; and `is_invalid_unicode` equals
that exclusion set on every codepoint. -/
theorem charset_exclusion (mappings : List (Nat × Nat)) (cp : Nat)
    (hmem : ∃ m ∈ mappings, m.1 = cp) :
    (cp ∉ create_charset true mappings ↔ specExcluded cp)
    ∧ (∀ n, is_invalid_unicode n = true ↔ specExcluded n) := by
  refine ⟨?_, is_invalid_unicode_iff⟩
  have hc : create_charset true mappings = mappings.foldl
      (fun s m => if !is_invalid_unicode m.1 then btreeInsert m.1 s else s)
      [] := by
    rfl
  rw [hc, mem_charset_foldl]
  simp only [List.not_mem_nil, false_or]
  constructor
  · intro h
    by_contra hs
    apply h
    obtain ⟨m, hm, h1⟩ := hmem
    refine ⟨m, hm, h1, ?_⟩
    cases hb : is_invalid_unicode cp with
    | false => rfl
    | true => exact absurd ((is_invalid_unicode_iff cp).mp hb) hs
  · rintro hs ⟨m, hm, h1, h2⟩
    rw [← is_invalid_unicode_iff cp] at hs
    rw [hs] at h2
    cases h2

/-- Witness for `charset_exclusion`: codepoint 65 (a mapped letter) and
the excluded noncharacter FDD0. -/
theorem charset_exclusion_witness :
    (65 ∉ create_charset true [(65, 1)] ↔ specExcluded 65)
    ∧ (is_invalid_unicode 0xFDD0 = true ↔ specExcluded 0xFDD0) :=
  ⟨(charset_exclusion [(65, 1)] 65 ⟨(65, 1), by decide, rfl⟩).1,
   (charset_exclusion [(65, 1)] 65 ⟨(65, 1), by decide, rfl⟩).2 0xFDD0⟩

/-- C1: Staleness check.  Immediately after a successful upsert of
`(path, info, T, S)` via `FontCache::update_font`, the staleness check
`needs_update(path, T, S)` returns `false`, while `needs_update(path,
T+1, S)` and `needs_update(path, T, S+1)` return `true`; and for every
path with no record in the store, `needs_update(path, mtime, size)`
returns `true` for all `(mtime, size)`.  The `fonts` table enforces
`path UNIQUE`, modelled by the `Nodup` hypothesis. -/
theorem staleness_after_upsert (db : FontDB) (p : String)
    (info : FontInfo) (T S : Int)
    (hpaths : (db.fonts.map (·.path)).Nodup) :
    needs_update (update_font db p info T S) p T S = false
    ∧ needs_update (update_font db p info T S) p (T + 1) S = true
    ∧ needs_update (update_font db p info T S) p T (S + 1) = true
    ∧ (∀ (db2 : FontDB) (m s : Int), (∀ r ∈ db2.fonts, r.path ≠ p) →
        needs_update db2 p m s = true) := by
  have hlast : ∀ (db2 : FontDB) (m s : Int), (∀ r ∈ db2.fonts, r.path ≠ p) →
      needs_update db2 p m s = true := by
    intro db2 m s h
    rw [needs_update_eq_true_iff]
    rintro r hr ⟨hp, _, _⟩
    exact h r hr hp
  cases hfind : db.fonts.find? (fun r => r.path == p) with
  | none =>
    have hnone : ∀ r ∈ db.fonts, r.path ≠ p := by
      intro r hr hcontra
      have := List.find?_eq_none.mp hfind r hr
      simp [hcontra] at this
    have hdb : update_font db p info T S =
        ⟨db.fonts ++ [⟨db.next_id, p, info.name_string, info.is_variable, T, S,
          info.charset_string⟩], db.props ++ newProps db.next_id info,
          db.next_id + 1⟩ := by
      unfold update_font
      rw [hfind]
    refine ⟨?_, ?_, ?_, hlast⟩
    · rw [hdb, needs_update_eq_false_iff]
      exact ⟨_, List.mem_append_right _ (List.mem_singleton_self _), rfl, rfl, rfl⟩
    · rw [hdb, needs_update_eq_true_iff]
      rintro r hr ⟨hp, hm, _⟩
      rcases List.mem_append.mp hr with h1 | h1
      · exact hnone r h1 hp
      · rcases List.mem_singleton.mp h1 with rfl
        have hm2 : T = T + 1 := hm
        omega
    · rw [hdb, needs_update_eq_true_iff]
      rintro r hr ⟨hp, _, hs⟩
      rcases List.mem_append.mp hr with h1 | h1
      · exact hnone r h1 hp
      · rcases List.mem_singleton.mp h1 with rfl
        have hs2 : S = S + 1 := hs
        omega
  | some r =>
    have hrmem : r ∈ db.fonts := List.mem_of_find?_eq_some hfind
    have hrpath : r.path = p := by
      have := List.find?_some hfind
      simpa using this
    have hdb : update_font db p info T S =
        { db with
          fonts := db.fonts.map (fun x =>
            if x.id == r.id then
              { x with name := info.name_string, is_variable := info.is_variable,
                       mtime := T, size := S, charset := info.charset_string }
            else x),
          props := db.props.filter (fun q => q.font_id != r.id)
            ++ newProps r.id info } := by
      unfold update_font
      rw [hfind]
    refine ⟨?_, ?_, ?_, hlast⟩
    · rw [hdb, needs_update_eq_false_iff]
      refine ⟨_, List.mem_map_of_mem _ hrmem, ?_, ?_, ?_⟩ <;>
        simp [hrpath]
    · rw [hdb, needs_update_eq_true_iff]
      rintro x hx ⟨hxp, hxm, _⟩
      rcases List.mem_map.mp hx with ⟨y, hy, rfl⟩
      by_cases hyid : y.id = r.id
      · simp only [hyid, beq_self_eq_true, if_true] at hxm
        have hm2 : T = T + 1 := hxm
        omega
      · simp only [beq_iff_eq, hyid, if_false] at hxp
        exact hyid (congrArg FontRow.id
          (List.inj_on_of_nodup_map hpaths hy hrmem (by rw [hxp, hrpath])))
    · rw [hdb, needs_update_eq_true_iff]
      rintro x hx ⟨hxp, _, hxs⟩
      rcases List.mem_map.mp hx with ⟨y, hy, rfl⟩
      by_cases hyid : y.id = r.id
      · simp only [hyid, beq_self_eq_true, if_true] at hxs
        have hs2 : S = S + 1 := hxs
        omega
      · simp only [beq_iff_eq, hyid, if_false] at hxp
        exact hyid (congrArg FontRow.id
          (List.inj_on_of_nodup_map hpaths hy hrmem (by rw [hxp, hrpath])))

/-- C2: Live matcher conjunction.  For both generations of the live
matchers (src/font.rs and src/matchers.rs), each of the axes, features,
scripts and tables matchers matches iff every wanted tag is present in
the corresponding tag collection, and an empty wanted list matches every
font. -/
theorem matcher_conjunction (info : FontInfo) (font : FontData)
    (wanted : List String) :
    (axesMatcher wanted info = true ↔ ∀ t ∈ wanted, t ∈ info.axes)
    ∧ (featuresMatcher wanted info = true ↔ ∀ t ∈ wanted, t ∈ info.features)
    ∧ (scriptsMatcher wanted info = true ↔ ∀ t ∈ wanted, t ∈ info.scripts)
    ∧ (tablesMatcher wanted info = true ↔ ∀ t ∈ wanted, t ∈ info.tables)
    ∧ (mAxesMatcher wanted font = true ↔ ∀ t ∈ wanted, t ∈ font.axes)
    ∧ (mFeaturesMatcher wanted font = true ↔
        ∀ t ∈ wanted, t ∈ font.gsubFeatures ++ font.gposFeatures)
    ∧ (mScriptsMatcher wanted font = true ↔
        ∀ t ∈ wanted, t ∈ font.gsubScripts ++ font.gposScripts)
    ∧ (mTablesMatcher wanted font = true ↔ ∀ t ∈ wanted, t ∈ font.tables)
    ∧ axesMatcher [] info = true ∧ featuresMatcher [] info = true
    ∧ scriptsMatcher [] info = true ∧ tablesMatcher [] info = true
    ∧ mAxesMatcher [] font = true ∧ mFeaturesMatcher [] font = true
    ∧ mScriptsMatcher [] font = true ∧ mTablesMatcher [] font = true := by
  refine ⟨?_, ?_, ?_, ?_, ?_, ?_, ?_, ?_,
    rfl, rfl, rfl, rfl, rfl, rfl, rfl, rfl⟩ <;>
    simp [axesMatcher, featuresMatcher, scriptsMatcher, tablesMatcher,
      mAxesMatcher, mFeaturesMatcher, mScriptsMatcher, mTablesMatcher,
      List.all_eq_true, List.contains, List.elem_iff]

/-- C6 (amended): the src/matchers.rs name matcher matches iff at least
one pattern matches at least one individual extracted name string; the
src/font.rs name matcher instead tests each pattern against the single
space-joined `name_string`, matching iff some pattern matches that
joined string. -/
theorem name_matcher_semantics (patterns : List (String → Bool))
    (names : List String) (info : FontInfo) :
    (mNameMatcher patterns names = true ↔
      ∃ p ∈ patterns, ∃ n ∈ names, p n = true)
    ∧ (fontNameMatcher patterns info = true ↔
      ∃ p ∈ patterns, p info.name_string = true) := by
  constructor <;> simp [mNameMatcher, fontNameMatcher, List.any_eq_true]

/-- C6 counterexample: with extracted names `Foo` and `Bar` and the single
anchored pattern matching exactly the string `Foo Bar`, the src/font.rs
name matcher reports a match although the pattern matches no individual
extracted name string (the src/matchers.rs matcher correctly reports no
match). -/
theorem name_matcher_counterexample :
    fontNameMatcher [fun s => s == "Foo Bar"]
        (from_font ⟨[], [], [], [], [], [], false, [], ["Foo", "Bar"]⟩
          (fun l => l.dedup) (fun l => l.dedup) (fun l => l.dedup)) = true
    ∧ IsHashOrder (fun l => l.dedup) ["Foo", "Bar"]
    ∧ mNameMatcher [fun s => s == "Foo Bar"] ["Foo", "Bar"] = false
    ∧ (["Foo", "Bar"].any (fun n => n == "Foo Bar")) = false := by
  refine ⟨by decide, ?_, by decide, by decide⟩
  unfold IsHashOrder
  exact List.Perm.refl _

/-- C3 (amended): in `FontQuery::process_font_file` a stale font that
parses successfully is persisted to the store only when it matches the
query; when it does not match, the store is left unchanged.  In the
cache-update path `FontQuery::update_cache_for_file`, the extracted info
is persisted unconditionally. -/
theorem scan_persistence (q : FontQuery) (extract : FontData → FontInfo)
    (font : FontData) (p : String) (m s : Int) (db : FontDB)
    (matched : List String) :
    (font_matches q font = true →
      process_font_file q extract (some font) p m s (some db) matched =
        (some (update_font db p (extract font) m s), matched ++ [p]))
    ∧ (font_matches q font = false →
      process_font_file q extract (some font) p m s (some db) matched =
        (some db, matched))
    ∧ update_cache_for_file extract (some font) p m s db =
        update_font db p (extract font) m s := by
  refine ⟨?_, ?_, rfl⟩ <;> intro h <;> simp [process_font_file, h]

/-- Witness for `scan_persistence` at concrete inputs: a variable-only
query against a variable font (persisted) and against a static font
(store untouched). -/
theorem scan_persistence_witness :
    process_font_file ⟨[], [], [], true, [], [], []⟩
        (fun _ => ⟨"N", true, ["wght"], [], [], [], ""⟩)
        (some ⟨["wght"], [], [], [], [], [], false, [], []⟩)
        "v.ttf" 1 2 (some ⟨[], [], 1⟩) [] =
      (some (update_font ⟨[], [], 1⟩ "v.ttf" ⟨"N", true, ["wght"], [], [], [], ""⟩ 1 2),
        ["v.ttf"])
    ∧ process_font_file ⟨[], [], [], true, [], [], []⟩
        (fun _ => ⟨"N", false, [], [], [], [], ""⟩)
        (some ⟨[], [], [], [], [], [], false, [], []⟩)
        "s.ttf" 1 2 (some ⟨[], [], 1⟩) [] = (some ⟨[], [], 1⟩, []) :=
  ⟨(scan_persistence ⟨[], [], [], true, [], [], []⟩
      (fun _ => ⟨"N", true, ["wght"], [], [], [], ""⟩)
      ⟨["wght"], [], [], [], [], [], false, [], []⟩
      "v.ttf" 1 2 ⟨[], [], 1⟩ []).1 (by decide),
   (scan_persistence ⟨[], [], [], true, [], [], []⟩
      (fun _ => ⟨"N", false, [], [], [], [], ""⟩)
      ⟨[], [], [], [], [], [], false, [], []⟩
      "s.ttf" 1 2 ⟨[], [], 1⟩ []).2.1 (by decide)⟩

/-- C3 counterexample: a candidate that is absent from the cache
(`needs_update` true) and parses successfully, but does not match a
variable-only query, is not persisted: `process_font_file` returns the
store unchanged, still holding no record for the path. -/
theorem scan_persistence_counterexample :
    needs_update ⟨[], [], 1⟩ "a.ttf" 1 2 = true
    ∧ process_font_file ⟨[], [], [], true, [], [], []⟩
        (fun _ => ⟨"N", false, [], [], [], [], ""⟩)
        (some ⟨[], [], [], [], [], [], false, [], []⟩)
        "a.ttf" 1 2 (some ⟨[], [], 1⟩) [] = (some ⟨[], [], 1⟩, [])
    ∧ font_matches ⟨[], [], [], true, [], [], []⟩
        ⟨[], [], [], [], [], [], false, [], []⟩ = false := by
  refine ⟨?_, ?_, ?_⟩ <;> decide

/-- C5 (amended): `FontCache::update_font` keeps the surrogate id of an
existing path stable, while `FontCache::batch_update_fonts` replaces the
row via `INSERT OR REPLACE`, so the record for an existing path comes out
carrying the freshly allocated id `next_id` instead of its old id. -/
theorem upsert_id_stability (db : FontDB) (p : String) (info : FontInfo)
    (m s : Int) (r : FontRow)
    (hpaths : (db.fonts.map (·.path)).Nodup)
    (hr : r ∈ db.fonts) (hrp : r.path = p) :
    (∃ r2 ∈ (update_font db p info m s).fonts, r2.path = p ∧ r2.id = r.id)
    ∧ (∀ r2 ∈ (batch_update_fonts db [(p, info, m, s)]).fonts,
        r2.path = p → r2.id = db.next_id) := by
  constructor
  · cases hfind : db.fonts.find? (fun x => x.path == p) with
    | none =>
      exfalso
      have := List.find?_eq_none.mp hfind r hr
      simp [hrp] at this
    | some r1 =>
      have hr1mem : r1 ∈ db.fonts := List.mem_of_find?_eq_some hfind
      have hr1path : r1.path = p := by
        have := List.find?_some hfind
        simpa using this
      have hr1r : r1 = r :=
        List.inj_on_of_nodup_map hpaths hr1mem hr (by rw [hr1path, hrp])
      subst hr1r
      unfold update_font
      rw [hfind]
      refine ⟨_, List.mem_map_of_mem _ hr1mem, ?_, ?_⟩ <;> simp [hr1path]
  · intro r2 hr2 hr2p
    simp only [batch_update_fonts, List.foldl_cons, List.foldl_nil,
      replace_font] at hr2
    rcases List.mem_append.mp hr2 with h1 | h1
    · rcases List.mem_filter.mp h1 with ⟨_, hne⟩
      simp [hr2p] at hne
    · rcases List.mem_singleton.mp h1 with rfl
      rfl

/-- Witness for `upsert_id_stability` at a concrete store. -/
theorem upsert_id_stability_witness :
    (∃ r2 ∈ (update_font ⟨[⟨1, "a.ttf", "A", false, 0, 0, ""⟩], [], 2⟩
        "a.ttf" ⟨"B", false, [], [], [], [], ""⟩ 5 6).fonts,
        r2.path = "a.ttf" ∧ r2.id = 1)
    ∧ (∀ r2 ∈ (batch_update_fonts ⟨[⟨1, "a.ttf", "A", false, 0, 0, ""⟩], [], 2⟩
        [("a.ttf", ⟨"B", false, [], [], [], [], ""⟩, 5, 6)]).fonts,
        r2.path = "a.ttf" → r2.id = 2) :=
  upsert_id_stability ⟨[⟨1, "a.ttf", "A", false, 0, 0, ""⟩], [], 2⟩
    "a.ttf" ⟨"B", false, [], [], [], [], ""⟩ 5 6
    ⟨1, "a.ttf", "A", false, 0, 0, ""⟩ (by decide) (by decide) rfl

/-- C5 counterexample: a batch upsert of an existing path replaces its
record id 1 by the fresh id 2, so the surrogate id is not stable under
`FontCache::batch_update_fonts`. -/
theorem batch_upsert_id_instability :
    (batch_update_fonts ⟨[⟨1, "a.ttf", "A", false, 0, 0, ""⟩], [], 2⟩
        [("a.ttf", ⟨"A", false, [], [], [], [], ""⟩, 5, 6)]).fonts =
      [⟨2, "a.ttf", "A", false, 5, 6, ""⟩] := by
  decide

/-- Witness for `staleness_after_upsert` at a concrete store. -/
theorem staleness_after_upsert_witness :
    needs_update
      (update_font ⟨[⟨1, "b.ttf", "B", false, 7, 8, "x"⟩], [], 2⟩
        "a.ttf" ⟨"A", false, [], [], [], [], ""⟩ 3 4) "a.ttf" 3 4 = false
    ∧ needs_update
      (update_font ⟨[⟨1, "b.ttf", "B", false, 7, 8, "x"⟩], [], 2⟩
        "a.ttf" ⟨"A", false, [], [], [], [], ""⟩ 3 4) "a.ttf" 4 4 = true
    ∧ needs_update ⟨[⟨1, "b.ttf", "B", false, 7, 8, "x"⟩], [], 2⟩
        "a.ttf" 3 4 = true := by
  have h := staleness_after_upsert ⟨[⟨1, "b.ttf", "B", false, 7, 8, "x"⟩], [], 2⟩
    "a.ttf" ⟨"A", false, [], [], [], [], ""⟩ 3 4 (by decide)
  exact ⟨h.1, by simpa using h.2.1,
    h.2.2.2 ⟨[⟨1, "b.ttf", "B", false, 7, 8, "x"⟩], [], 2⟩ 3 4 (by decide)⟩

end Fontgrep
